import Mathlib

/-!
Shallow embedding of `src/main.cc` (the "ametrine" launcher) and proofs about
its resolution-and-acquisition pipeline.

JSON documents are modelled by the inductive `Json` below, following Qt's
`QJsonValue` access semantics: indexing a non-object or a missing key yields
`undefined`, `toString` of a non-string yields `""`, `toArray` of a non-array
yields `[]`, `toInt` of a non-number yields `0`, and comparing a value with a
string is string equality when the value is a string and false otherwise.
The compile-time platform constant `OS_NAME` and the preprocessor-conditional
JVM flags are threaded as explicit parameters, one per `#ifdef`.
-/

namespace Ametrine

inductive Json where
  | undefined
  | null
  | bool (b : Bool)
  | num (n : Int)
  | str (s : String)
  | arr (elems : List Json)
  | obj (fields : List (String × Json))

/-- Qt `QJsonValue::operator[](QString)`: field of an object, `undefined`
for a missing key or a non-object receiver. -/
def Json.get (j : Json) (k : String) : Json :=
  match j with
  | .obj fs =>
    match fs.find? (fun f => f.1 == k) with
    | some f => f.2
    | none => .undefined
  | _ => .undefined

/-- Qt `QJsonValue::toString()` with its default: `""` unless a string. -/
def Json.toString (j : Json) : String :=
  match j with
  | .str s => s
  | _ => ""

/-- Qt `QJsonValue::toInt()` with its default: `0` unless a number. -/
def Json.toInt (j : Json) : Int :=
  match j with
  | .num n => n
  | _ => 0

/-- Qt `QJsonValue::toArray()` with its default: `[]` unless an array. -/
def Json.toArray (j : Json) : List Json :=
  match j with
  | .arr xs => xs
  | _ => []

/-- Qt `QJsonValue::isArray()`. -/
def Json.isArray (j : Json) : Bool :=
  match j with
  | .arr _ => true
  | _ => false

def Json.isString (j : Json) : Bool :=
  match j with
  | .str _ => true
  | _ => false

def Json.isNum (j : Json) : Bool :=
  match j with
  | .num _ => true
  | _ => false

/-- Qt `QJsonValue::toObject()` with its default: no fields unless an object. -/
def Json.toObj (j : Json) : List (String × Json) :=
  match j with
  | .obj fs => fs
  | _ => []

/-- Qt `QJsonValue == QString`: the implicit conversion makes this string
equality when the value is a string, false otherwise (`undefined`, numbers,
objects … never equal a string value). -/
def Json.eqStr (j : Json) (s : String) : Bool :=
  match j with
  | .str t => t == s
  | _ => false

/-! ## Rule evaluation (`VersionInfo::fromJson`, the inner `rules` loop)

The loop body is
`(rule["action"] == "allow" && rule["os"]["name"] != OS_NAME) ||
 (rule["action"] == "disallow" && rule["os"]["name"] == OS_NAME)`,
jumping past the append (`goto end`) as soon as it holds. -/

/-- The condition on which the source's rule loop jumps to `end`, i.e. the
clause that excludes the library. -/
def ruleExcludes (osName : String) (rule : Json) : Bool :=
  ((rule.get "action").eqStr "allow" && !(((rule.get "os").get "name").eqStr osName)) ||
  ((rule.get "action").eqStr "disallow" && ((rule.get "os").get "name").eqStr osName)

/-- The source's `for (QJsonValue rule : rules.toArray())` loop with its
`goto end`: stop at the first excluding clause. -/
def rulesExclude (osName : String) : List Json → Bool
  | [] => false
  | r :: rest => if ruleExcludes osName r then true else rulesExclude osName rest

/-- Whether a library entry survives the rules check of
`VersionInfo::fromJson`: the `rules` field is consulted only when it is a
JSON array, and then the entry is dropped iff some clause excludes it. -/
def libIncluded (osName : String) (lib : Json) : Bool :=
  if (lib.get "rules").isArray then !(rulesExclude osName ((lib.get "rules").toArray))
  else true

/-- `lib["downloads"]["artifact"]["path"].toString()`. -/
def libPath (lib : Json) : String :=
  (((lib.get "downloads").get "artifact").get "path").toString

/-- The source's outer `for (QJsonValue lib : data["libraries"].toArray())`
loop: the append at `info.libraries << …` is skipped exactly when the rules
field is an array and some clause excludes the entry (`goto end`). -/
def collectLibraries (osName : String) : List Json → List String
  | [] => []
  | lib :: rest =>
    if (lib.get "rules").isArray && rulesExclude osName ((lib.get "rules").toArray) then
      collectLibraries osName rest
    else
      libPath lib :: collectLibraries osName rest

/-! ## `VersionInfo` -/

structure VersionInfo where
  id : String
  type : String
  mainClass : String
  assets : String
  assetIndex : String
  clientJar : String
  jvmVersion : Nat
  libraries : List String
deriving DecidableEq, Repr

/-- `VersionInfo::fromJson(id, data)`.  `jvmVersion` is a `quint16`, so the
`toInt()` result is reduced mod 2^16 on assignment. -/
def VersionInfo.fromJson (osName : String) (id : String) (data : Json) : VersionInfo where
  id := id
  type := (data.get "type").toString
  mainClass := (data.get "mainClass").toString
  assets := (data.get "assets").toString
  assetIndex := ((data.get "assetIndex").get "url").toString
  clientJar := (((data.get "downloads").get "client").get "url").toString
  jvmVersion := (((data.get "javaVersion").get "majorVersion").toInt.emod 65536).toNat
  libraries := collectLibraries osName ((data.get "libraries").toArray)

/-! ## `VersionManifest` and `VersionManager`

`versionUrls` is a `QMap<QString, QString>`; we model it as an association
list built by insert-with-overwrite, observed through `mapLookup`
(= `QMap::value`) and `mapValueD` (= the `const` `operator[]`, which returns
a default-constructed `QString()` — the empty string — for an absent key). -/

/-- `QMap` insertion `m[k] = v`: overwrites any existing entry for `k`. -/
def mapInsert (m : List (String × String)) (k v : String) : List (String × String) :=
  m.filter (fun p => !(p.1 == k)) ++ [(k, v)]

/-- `QMap::value(k)` as an `Option`. -/
def mapLookup (m : List (String × String)) (k : String) : Option String :=
  (m.find? (fun p => p.1 == k)).map (fun p => p.2)

/-- `const QMap::operator[]`: `value(k)`, default-constructed (`""`) when
`k` is absent. -/
def mapValueD (m : List (String × String)) (k : String) : String :=
  (mapLookup m k).getD ""

structure VersionManifest where
  latestRelease : String
  latestSnapshot : String
  versionUrls : List (String × String)
deriving DecidableEq, Repr

/-- `VersionManifest::fromJson`: the loop
`manifest.versionUrls[version["id"].toString()] = version["url"].toString()`
over `data["versions"].toArray()`. -/
def VersionManifest.fromJson (data : Json) : VersionManifest where
  latestRelease := ((data.get "latest").get "release").toString
  latestSnapshot := ((data.get "latest").get "snapshot").toString
  versionUrls :=
    ((data.get "versions").toArray).foldl
      (fun m v => mapInsert m ((v.get "id").toString) ((v.get "url").toString)) []

/-- `VersionManager::fetchVersion(manifest, id)`: builds a request for
`manifest.versionUrls[id]` (the `QMap` default `""` when `id` is absent)
and resolves the fetched document.  The network is abstracted as the
function `fetch` from URL to parsed document. -/
def fetchVersion (osName : String) (fetch : String → Json)
    (manifest : VersionManifest) (id : String) : VersionInfo :=
  VersionInfo.fromJson osName id (fetch (mapValueD manifest.versionUrls id))

/-- `VersionManager::fetchAssets(version)`: fetch `version.assetIndex` and
take `["objects"].toObject()`. -/
def fetchAssets (fetch : String → Json) (version : VersionInfo) : List (String × Json) :=
  ((fetch version.assetIndex).get "objects").toObj

/-! ## Spec-side models, for the refinement claims

These definitions follow the specification's words (§4.1, §4.3), not the
source; they exist only to be compared with the definitions above. -/

/-- Spec §4.1 wording: `match` is true iff the clause's condition names
`os.name` and it equals the platform name, or names `os.arch` and it equals
the platform architecture; false if neither field is present. -/
def specMatch (name arch : String) (rule : Json) : Bool :=
  ((rule.get "os").get "name").eqStr name || ((rule.get "os").get "arch").eqStr arch

/-- Spec §4.1 wording: a clause triggers exclusion iff its action is `allow`
and not `match`, or its action is `disallow` and `match`. -/
def specRuleExcludes (name arch : String) (rule : Json) : Bool :=
  ((rule.get "action").eqStr "allow" && !(specMatch name arch rule)) ||
  ((rule.get "action").eqStr "disallow" && specMatch name arch rule)

/-- Spec §4.1 wording: included iff no clause triggers exclusion (an empty
rule list yields inclusion). -/
def specIncluded (name arch : String) (rules : List Json) : Bool :=
  !(rules.any (specRuleExcludes name arch))

/-- The spec's clause semantics with the `os.arch` disjunct removed — the
amended reading in which only `os.name` is ever consulted. -/
def specRuleExcludesNameOnly (name : String) (rule : Json) : Bool :=
  ((rule.get "action").eqStr "allow" && !(((rule.get "os").get "name").eqStr name)) ||
  ((rule.get "action").eqStr "disallow" && ((rule.get "os").get "name").eqStr name)

/-- Inclusion under the amended (name-only) clause semantics. -/
def specIncludedNameOnly (name : String) (rules : List Json) : Bool :=
  !(rules.any (specRuleExcludesNameOnly name))

inductive ResolveError where
  | unknownVersion
  | malformedVersion
deriving DecidableEq, Repr

/-- Result of resolution in the spec-side models: either a `VersionInfo` or
one of the spec's error values. -/
inductive ResolveResult where
  | ok (v : VersionInfo)
  | err (e : ResolveError)
deriving DecidableEq, Repr

/-- Spec §4.3 wording, lookup part: fail with `UnknownVersion` when `id` is
absent from `manifest.versionUrls`, otherwise fetch the mapped URL and
resolve the document (resolution itself as in the source, to isolate the
lookup behaviour). -/
def resolveSpec (osName : String) (fetch : String → Json)
    (manifest : VersionManifest) (id : String) : ResolveResult :=
  match mapLookup manifest.versionUrls id with
  | none => .err .unknownVersion
  | some url => .ok (VersionInfo.fromJson osName id (fetch url))

/-- Spec §4.3 wording, required-field part: fail with `MalformedVersion`
when `mainClass`, `id`, or the client-jar URL is absent from the version
document; otherwise resolve with zero/empty defaults for missing
non-essential fields. -/
def fromJsonSpec (osName : String) (id : String) (data : Json) : ResolveResult :=
  if (data.get "mainClass").isString && (data.get "id").isString &&
      ((((data.get "downloads").get "client").get "url").isString) then
    .ok (VersionInfo.fromJson osName id data)
  else
    .err .malformedVersion

/-! ## `Launcher`: directory layout, download orchestration, launch arguments -/

def USERNAME : String := "joebiden"
def RESOURCES_ENDPOINT : String := "https://resources.download.minecraft.net/"
def LIBRARIES_ENDPOINT : String := "https://libraries.minecraft.net/"

/-- The two externally supplied roots (`getDataDirectory`,
`getCacheDirectory`); `QDir::filePath` is modelled as `root ++ "/" ++ rel`. -/
structure Layout where
  dataDir : String
  cacheDir : String
deriving DecidableEq, Repr

def assetsDir (l : Layout) : String := l.dataDir ++ "/assets"
def librariesDir (l : Layout) : String := l.dataDir ++ "/libraries"
def gameDir (l : Layout) (id : String) : String :=
  l.dataDir ++ "/instances/" ++ id ++ "/minecraft"
def versionDir (l : Layout) (id : String) : String := l.dataDir ++ "/versions/" ++ id
def nativesDir (l : Layout) : String := l.cacheDir ++ "/natives"

/-- `hash.left(2) + "/" + hash` for `hash = obj.value()["hash"].toString()`. -/
def assetEntry (obj : Json) : String :=
  let hash := (obj.get "hash").toString
  hash.take 2 ++ "/" ++ hash

/-- The full task list `Launcher::downloadFiles` feeds to `downloadAsset`,
as `(remote url, local path)` pairs in call order: one call per library, one
per asset-index object, then the client jar. -/
def allTasks (version : VersionInfo) (assets : List (String × Json))
    (l : Layout) : List (String × String) :=
  version.libraries.map (fun lib =>
      (LIBRARIES_ENDPOINT ++ lib, librariesDir l ++ "/" ++ lib)) ++
  assets.map (fun o =>
      (RESOURCES_ENDPOINT ++ assetEntry o.2, assetsDir l ++ "/objects/" ++ assetEntry o.2)) ++
  [(version.clientJar, versionDir l version.id ++ "/client.jar")]

/-- `Launcher::downloadAsset` returns early when `QFileInfo(path).exists()`;
the tasks actually started (a network request issued and an entry put into
`pending`) are those whose local path does not yet exist. -/
def startedTasks (fileExists : String → Bool) (version : VersionInfo)
    (assets : List (String × Json)) (l : Layout) : List (String × String) :=
  (allTasks version assets l).filter (fun t => !fileExists t.2)

/-- The file writes of one orchestration run: the `finished` handler writes
`reply->readAll()` — the body fetched from the task's URL — to the pending
path, once per started task.  `fetchBody` abstracts the network response
body. -/
def runWrites (fetchBody : String → String) (fileExists : String → Bool)
    (version : VersionInfo) (assets : List (String × Json))
    (l : Layout) : List (String × String) :=
  (startedTasks fileExists version assets l).map (fun t => (t.2, fetchBody t.1))

/-- The local path the spec says the asset index is persisted under:
`assetsRoot/indexes/<assetsId>.json`. -/
def assetIndexFilePath (l : Layout) (assetsId : String) : String :=
  assetsDir l ++ "/indexes/" ++ assetsId ++ ".json"

/-- The three `#ifdef`s that gate JVM flags in `Launcher::launchGame`. -/
structure PlatformFlags where
  isMacOS : Bool
  isWin : Bool
  isX86_32 : Bool
deriving DecidableEq, Repr

/-- The classpath accumulation loop of `Launcher::launchGame`:
`classpath += librariesDir + "/" + lib; classpath += QDir::listSeparator()`
for each library. `sep` is the platform path-list separator. -/
def classpathFold (libsDir sep : String) (libs : List String) : String :=
  libs.foldl (fun acc lib => acc ++ libsDir ++ "/" ++ lib ++ sep) ""

/-- The complete classpath: the loop's result followed by
`versionDir + "/client.jar"`. -/
def classpath (l : Layout) (sep : String) (version : VersionInfo) : String :=
  classpathFold (librariesDir l) sep version.libraries ++
    versionDir l version.id ++ "/client.jar"

/-- The argument vector `Launcher::launchGame` passes to `QProcess::start`,
built by the successive `args << …` statements (each `#ifdef`-guarded flag
contributing only on its platform). -/
def launchArgs (pf : PlatformFlags) (sep : String) (l : Layout)
    (version : VersionInfo) : List String :=
  (if pf.isMacOS then ["-XstartOnFirstThread"] else []) ++
  (if pf.isWin then
    ["-XX:HeapDumpPath=MojangTricksIntelDriversForPerformance_javaw.exe_minecraft.exe.heapdump"]
   else []) ++
  (if pf.isX86_32 then ["-Xss1M"] else []) ++
  ["-Djava.library.path=" ++ nativesDir l,
   "-Djna.tmpdir=" ++ nativesDir l,
   "-Dorg.lwjgl.system.SharedLibraryExtractPath=" ++ nativesDir l,
   "-Dio.netty.native.workdir=" ++ nativesDir l,
   "-Dminecraft.launcher.brand=Ametrine",
   "-Dminecraft.launcher.version=0.1.0",
   "-cp", classpath l sep version,
   version.mainClass,
   "--username", USERNAME,
   "--version", version.id,
   "--gameDir", gameDir l version.id,
   "--assetsDir", assetsDir l,
   "--assetIndex", version.assets,
   "--accessToken", "",
   "--versionType", version.type]

/-- Join a list of path entries with the platform path-list separator, as
§4.6 of the specification words the classpath: each entry followed by the
separator except the last. -/
def specClasspathJoin (sep : String) : List String → String
  | [] => ""
  | [x] => x
  | x :: y :: rest => x ++ sep ++ specClasspathJoin sep (y :: rest)

/-! ## Helper lemmas -/

theorem rulesExclude_eq_any (osName : String) (rules : List Json) :
    rulesExclude osName rules = rules.any (ruleExcludes osName) := by
  induction rules with
  | nil => rfl
  | cons r rest ih =>
    simp only [rulesExclude, List.any_cons]
    cases h : ruleExcludes osName r <;> simp [h, ih]

theorem libIncluded_eq_not_skip (osName : String) (lib : Json) :
    libIncluded osName lib =
      !((lib.get "rules").isArray &&
        rulesExclude osName ((lib.get "rules").toArray)) := by
  unfold libIncluded
  cases h : (lib.get "rules").isArray <;> simp [h]

theorem collectLibraries_eq_filter_map (osName : String) (libs : List Json) :
    collectLibraries osName libs = (libs.filter (libIncluded osName)).map libPath := by
  induction libs with
  | nil => rfl
  | cons lib rest ih =>
    by_cases h : ((lib.get "rules").isArray &&
        rulesExclude osName ((lib.get "rules").toArray)) = true
    · have hinc : libIncluded osName lib = false := by
        rw [libIncluded_eq_not_skip, h]; rfl
      simp [collectLibraries, h, List.filter_cons, hinc, ih]
    · have hinc : libIncluded osName lib = true := by
        rw [libIncluded_eq_not_skip, Bool.eq_false_iff.mpr h]; rfl
      simp [collectLibraries, h, List.filter_cons, hinc, ih]

theorem ruleExcludes_eq_specNameOnly (name : String) :
    ruleExcludes name = specRuleExcludesNameOnly name := rfl

/-! ## C1: rule evaluation -/

/-- C1, counterexample.  The claim's clause semantics (`specIncluded`,
following the spec's words, in which a condition naming `os.arch` equal to
the platform architecture makes `match` true) disagrees with the source's
evaluation (`libIncluded`) on the single clause
`{action: allow, os: {arch: "x86_64"}}` for platform `(linux, x86_64)`:
the spec includes the library, the code excludes it, because the code only
ever consults `rule["os"]["name"]`. -/
theorem c1_rule_eval_counterexample :
    libIncluded "linux"
        (Json.obj [("rules", Json.arr
          [Json.obj [("action", Json.str "allow"),
                     ("os", Json.obj [("arch", Json.str "x86_64")])]])]) ≠
      specIncluded "linux" "x86_64"
        [Json.obj [("action", Json.str "allow"),
                   ("os", Json.obj [("arch", Json.str "x86_64")])]] := by
  decide

/-- C1, amended: clause `match` consults only `os.name` (a condition naming
only `os.arch`, or naming neither field, yields `match` false); a clause with
action `allow` and not `match`, or `disallow` and `match`, excludes the
library — equivalently, at the first such clause — and an entry whose rule
list is empty or absent is included. -/
theorem c1_rule_eval_name_only (name : String) (rules : List Json) :
    libIncluded name (Json.obj [("rules", Json.arr rules)]) =
        specIncludedNameOnly name rules ∧
      rulesExclude name rules = rules.any (specRuleExcludesNameOnly name) ∧
      libIncluded name (Json.obj []) = true := by
  refine ⟨?_, ?_, rfl⟩
  · simp [libIncluded, Json.get, Json.isArray, Json.toArray, specIncludedNameOnly,
      rulesExclude_eq_any, ruleExcludes_eq_specNameOnly]
  · rw [rulesExclude_eq_any, ruleExcludes_eq_specNameOnly]

/-! ## C5: libraries are the order-preserving filtered subsequence -/

/-- C5: for every version document, the resolved `libraries` sequence equals
the in-order filter of the document's library entries by the rule evaluator,
mapped to their artifact paths, and is therefore an order-preserving
subsequence of the full entry list's paths. -/
theorem c5_libraries_filter_subsequence (osName id : String) (doc : Json) :
    (VersionInfo.fromJson osName id doc).libraries =
        (((doc.get "libraries").toArray).filter (libIncluded osName)).map libPath ∧
      ((VersionInfo.fromJson osName id doc).libraries).Sublist
        (((doc.get "libraries").toArray).map libPath) := by
  constructor
  · exact collectLibraries_eq_filter_map osName _
  · rw [show (VersionInfo.fromJson osName id doc).libraries =
        collectLibraries osName ((doc.get "libraries").toArray) from rfl,
      collectLibraries_eq_filter_map osName _]
    exact (List.filter_sublist _).map libPath

/-! ## C10: a non-array `rules` field is ignored -/

/-- C10: a library entry whose `rules` field is present but not a JSON array
is included unconditionally, exactly like an entry with no `rules` field:
`rules.isArray()` guards the whole rules loop. -/
theorem c10_non_array_rules_ignored (osName : String) (lib : Json)
    (h : (lib.get "rules").isArray = false) :
    libIncluded osName lib = true ∧ libIncluded osName (Json.obj []) = true := by
  constructor
  · unfold libIncluded
    rw [h]
    rfl
  · rfl

/-- C10, witness: a concrete entry whose `rules` field is the string `"x"`. -/
theorem c10_non_array_rules_ignored_witness :
    ((Json.obj [("rules", Json.str "x")]).get "rules").isArray = false ∧
      (libIncluded "linux" (Json.obj [("rules", Json.str "x")]) = true ∧
        libIncluded "linux" (Json.obj []) = true) :=
  ⟨by decide, c10_non_array_rules_ignored "linux" _ (by decide)⟩

/-! ## C3: absent id does not fail -/

/-- C3, counterexample.  The manifest maps only `"1.0"`; requesting `"2.0"`
must, per the claim, fail with `UnknownVersion` (the spec-side
`resolveSpec`), but the source's `fetchVersion` returns an ordinary
`VersionInfo` — `QMap::operator[]` yields the default-constructed empty URL,
which is then fetched like any other. -/
theorem c3_unknown_version_counterexample :
    ResolveResult.ok
        (fetchVersion "linux" (fun _ => Json.obj [])
          ⟨"", "", [("1.0", "u")]⟩ "2.0") ≠
      resolveSpec "linux" (fun _ => Json.obj [])
        ⟨"", "", [("1.0", "u")]⟩ "2.0" := by
  decide

/-- C3, amended: no failure path exists.  When `id` is absent from
`versionUrls`, the `QMap` default `""` is used as the URL and the document
fetched from `""` is resolved; when `id` is present with URL `u`, the
document fetched from `u` is resolved. -/
theorem c3_lookup_behaviour (osName : String) (fetch : String → Json)
    (manifest : VersionManifest) (id : String) :
    (mapLookup manifest.versionUrls id = none →
        fetchVersion osName fetch manifest id =
          VersionInfo.fromJson osName id (fetch "")) ∧
      ∀ u, mapLookup manifest.versionUrls id = some u →
        fetchVersion osName fetch manifest id =
          VersionInfo.fromJson osName id (fetch u) := by
  constructor
  · intro h
    simp [fetchVersion, mapValueD, h]
  · intro u h
    simp [fetchVersion, mapValueD, h]

/-- C3, witness: the amended behaviour at a concrete manifest, for one
absent and one present id. -/
theorem c3_lookup_behaviour_witness :
    (fetchVersion "linux" (fun _ => Json.obj []) ⟨"", "", [("1.0", "u")]⟩ "2.0" =
        VersionInfo.fromJson "linux" "2.0" ((fun _ => Json.obj []) "")) ∧
      fetchVersion "linux" (fun _ => Json.obj []) ⟨"", "", [("1.0", "u")]⟩ "1.0" =
        VersionInfo.fromJson "linux" "1.0" ((fun _ => Json.obj []) "u") :=
  ⟨(c3_lookup_behaviour "linux" (fun _ => Json.obj [])
      ⟨"", "", [("1.0", "u")]⟩ "2.0").1 (by decide),
   (c3_lookup_behaviour "linux" (fun _ => Json.obj [])
      ⟨"", "", [("1.0", "u")]⟩ "1.0").2 "u" (by decide)⟩

/-! ## C4: missing essential fields do not fail either -/

theorem Json.toString_of_not_isString {j : Json} (h : j.isString = false) :
    j.toString = "" := by
  cases j <;> simp_all [Json.isString, Json.toString]

theorem Json.toInt_of_not_isNum {j : Json} (h : j.isNum = false) :
    j.toInt = 0 := by
  cases j <;> simp_all [Json.isNum, Json.toInt]

/-- C4, counterexample.  On the empty document the claim (the spec-side
`fromJsonSpec`) demands failure with `MalformedVersion` — `mainClass`, `id`
and the client-jar URL are all absent — but the source's
`VersionInfo::fromJson` returns an ordinary `VersionInfo` whose fields are
all the Qt defaults. -/
theorem c4_malformed_version_counterexample :
    ResolveResult.ok (VersionInfo.fromJson "linux" "1.0" (Json.obj [])) ≠
      fromJsonSpec "linux" "1.0" (Json.obj []) := by
  decide

/-- C4, amended: resolution never fails.  Every absent field — essential or
not — resolves to the zero/empty default: a non-string `mainClass` yields
`""`, a non-string client-jar URL yields `""`, a non-numeric
`javaVersion.majorVersion` yields `0`; the `id` is the caller's argument,
never read from the document. -/
theorem c4_defaults_never_fail (osName id : String) (doc : Json) :
    (VersionInfo.fromJson osName id doc).id = id ∧
      ((doc.get "mainClass").isString = false →
        (VersionInfo.fromJson osName id doc).mainClass = "") ∧
      ((((doc.get "downloads").get "client").get "url").isString = false →
        (VersionInfo.fromJson osName id doc).clientJar = "") ∧
      (((doc.get "javaVersion").get "majorVersion").isNum = false →
        (VersionInfo.fromJson osName id doc).jvmVersion = 0) := by
  refine ⟨rfl, ?_, ?_, ?_⟩
  · intro h
    exact Json.toString_of_not_isString h
  · intro h
    exact Json.toString_of_not_isString h
  · intro h
    show (((doc.get "javaVersion").get "majorVersion").toInt.emod 65536).toNat = 0
    rw [Json.toInt_of_not_isNum h]
    rfl

/-- C4, witness: the amended behaviour at the empty document. -/
theorem c4_defaults_never_fail_witness :
    ((Json.obj []).get "mainClass").isString = false ∧
      (VersionInfo.fromJson "linux" "1.0" (Json.obj [])).mainClass = "" ∧
      (VersionInfo.fromJson "linux" "1.0" (Json.obj [])).jvmVersion = 0 :=
  ⟨by decide,
   (c4_defaults_never_fail "linux" "1.0" (Json.obj [])).2.1 (by decide),
   (c4_defaults_never_fail "linux" "1.0" (Json.obj [])).2.2.2 (by decide)⟩

/-! ## C2: no asset-index persistence -/

/-- C2, counterexample.  A concrete successful run (no libraries, no asset
objects, nothing present locally) writes only the client jar; the path
`assetsRoot/indexes/<assetsId>.json` the claim says is always rewritten is
not among the written paths. -/
theorem c2_no_index_write_counterexample :
    assetIndexFilePath ⟨"D", "C"⟩ "idx" ∉
      (runWrites (fun _ => "B") (fun _ => false)
        ⟨"1", "", "", "idx", "", "cj", 0, []⟩ [] ⟨"D", "C"⟩).map Prod.fst := by
  decide

/-- C2, amended: after the tasks settle nothing further is persisted.  Every
file write of one orchestration run is the body fetched from a task's URL
written to that task's destination — a library path, an asset-object path,
or the client-jar path; there is no asset-index write. -/
theorem c2_writes_are_task_bodies (fetchBody : String → String)
    (fileExists : String → Bool) (version : VersionInfo)
    (assets : List (String × Json)) (l : Layout) (p b : String)
    (h : (p, b) ∈ runWrites fetchBody fileExists version assets l) :
    (∃ lib, lib ∈ version.libraries ∧ p = librariesDir l ++ "/" ++ lib ∧
        b = fetchBody (LIBRARIES_ENDPOINT ++ lib)) ∨
      (∃ o, o ∈ assets ∧ p = assetsDir l ++ "/objects/" ++ assetEntry o.2 ∧
        b = fetchBody (RESOURCES_ENDPOINT ++ assetEntry o.2)) ∨
      (p = versionDir l version.id ++ "/client.jar" ∧
        b = fetchBody version.clientJar) := by
  simp only [runWrites, List.mem_map] at h
  obtain ⟨t, ht, heq⟩ := h
  obtain ⟨hp, hb⟩ := Prod.mk.injEq .. ▸ heq
  simp only [startedTasks, List.mem_filter] at ht
  have htall := ht.1
  simp only [allTasks, List.mem_append, List.mem_map, List.mem_singleton] at htall
  rcases htall with (⟨lib, hlib, hteq⟩ | ⟨o, ho, hteq⟩) | hteq
  · subst hteq
    exact Or.inl ⟨lib, hlib, hp.symm, hb.symm⟩
  · subst hteq
    exact Or.inr (Or.inl ⟨o, ho, hp.symm, hb.symm⟩)
  · subst hteq
    exact Or.inr (Or.inr ⟨hp.symm, hb.symm⟩)

/-- C2, witness: the write performed for a concrete single-library run is
that library's fetched body at that library's destination. -/
theorem c2_writes_are_task_bodies_witness :
    ("D/libraries/L", "https://libraries.minecraft.net/L") ∈
        runWrites (fun u => u) (fun _ => false)
          ⟨"1", "", "", "idx", "", "cj", 0, ["L"]⟩ [] ⟨"D", "C"⟩ ∧
      ((∃ lib, lib ∈ ["L"] ∧ "D/libraries/L" = librariesDir ⟨"D", "C"⟩ ++ "/" ++ lib ∧
          "https://libraries.minecraft.net/L" = (fun u => u) (LIBRARIES_ENDPOINT ++ lib)) ∨
        (∃ o, o ∈ ([] : List (String × Json)) ∧
          "D/libraries/L" = assetsDir ⟨"D", "C"⟩ ++ "/objects/" ++ assetEntry o.2 ∧
          "https://libraries.minecraft.net/L" = (fun u => u) (RESOURCES_ENDPOINT ++ assetEntry o.2)) ∨
        ("D/libraries/L" = versionDir ⟨"D", "C"⟩ "1" ++ "/client.jar" ∧
          "https://libraries.minecraft.net/L" = (fun u => u) "cj")) :=
  ⟨by decide,
   c2_writes_are_task_bodies (fun u => u) (fun _ => false)
     ⟨"1", "", "", "idx", "", "cj", 0, ["L"]⟩ [] ⟨"D", "C"⟩
     "D/libraries/L" "https://libraries.minecraft.net/L" (by decide)⟩

/-! ## C6: tasks are not deduplicated by destination -/

/-- C6, counterexample.  Two logical asset names sharing one hash: nothing
exists locally, and the run creates two tasks with the same destination
`D/assets/objects/aa/aabb` — `downloadAsset` checks only the filesystem,
which the in-flight sibling has not written yet. -/
theorem c6_duplicate_destination_counterexample :
    ¬ ((startedTasks (fun _ => false) ⟨"1", "", "", "idx", "", "cj", 0, []⟩
        [("a", Json.obj [("hash", Json.str "aabb")]),
         ("b", Json.obj [("hash", Json.str "aabb")])]
        ⟨"D", "C"⟩).map Prod.snd).Nodup := by
  decide

/-- C6, amended: at most one task per distinct local path is created only
when the enumerated destinations are themselves pairwise distinct (distinct
library paths and asset hashes); the started tasks are a subsequence of all
tasks, so distinct full destinations give distinct started destinations. -/
theorem c6_distinct_when_dests_distinct (fileExists : String → Bool)
    (version : VersionInfo) (assets : List (String × Json)) (l : Layout)
    (h : ((allTasks version assets l).map Prod.snd).Nodup) :
    ((startedTasks fileExists version assets l).map Prod.snd).Nodup :=
  List.Nodup.sublist ((List.filter_sublist _).map Prod.snd) h

/-- C6, witness: a concrete run with two distinct hashes and one library
has pairwise-distinct destinations, before and after the presence filter. -/
theorem c6_distinct_when_dests_distinct_witness :
    ((allTasks ⟨"1", "", "", "idx", "", "cj", 0, ["L"]⟩
        [("a", Json.obj [("hash", Json.str "aabb")]),
         ("b", Json.obj [("hash", Json.str "ccdd")])] ⟨"D", "C"⟩).map Prod.snd).Nodup ∧
      ((startedTasks (fun _ => false) ⟨"1", "", "", "idx", "", "cj", 0, ["L"]⟩
        [("a", Json.obj [("hash", Json.str "aabb")]),
         ("b", Json.obj [("hash", Json.str "ccdd")])] ⟨"D", "C"⟩).map Prod.snd).Nodup :=
  ⟨by decide,
   c6_distinct_when_dests_distinct (fun _ => false)
     ⟨"1", "", "", "idx", "", "cj", 0, ["L"]⟩
     [("a", Json.obj [("hash", Json.str "aabb")]),
      ("b", Json.obj [("hash", Json.str "ccdd")])] ⟨"D", "C"⟩ (by decide)⟩

/-! ## C7: presence check and second-run idempotence -/

/-- C7: every started task's destination did not exist (a task whose local
path exists is dropped before any request), and a second orchestration run —
in which a path exists iff it existed before the first run or the first run
started (and, succeeding, wrote) a task for it — starts no task at all. -/
theorem c7_presence_skip_idempotent (version : VersionInfo)
    (assets : List (String × Json)) (l : Layout) (fileExists : String → Bool) :
    ((startedTasks fileExists version assets l).all (fun t => !fileExists t.2) = true) ∧
      startedTasks
        (fun p => fileExists p ||
          (startedTasks fileExists version assets l).any (fun t => t.2 == p))
        version assets l = [] := by
  constructor
  · rw [List.all_eq_true]
    intro t ht
    exact (List.mem_filter.mp ht).2
  · rw [startedTasks, List.filter_eq_nil_iff]
    intro t ht
    have hpos : (fileExists t.2 ||
        (startedTasks fileExists version assets l).any (fun t' => t'.2 == t.2)) = true := by
      cases hf : fileExists t.2 with
      | true => simp
      | false =>
        simp only [Bool.false_or]
        rw [List.any_eq_true]
        exact ⟨t, List.mem_filter.mpr ⟨ht, by simp [hf]⟩, by simp⟩
    simp [hpos]

/-! ## C8: classpath and argument vector -/

theorem classpathFold_acc (d sep : String) (libs : List String) (a : String) :
    libs.foldl (fun acc lib => acc ++ d ++ "/" ++ lib ++ sep) a =
      a ++ libs.foldl (fun acc lib => acc ++ d ++ "/" ++ lib ++ sep) "" := by
  induction libs generalizing a with
  | nil => simp
  | cons x xs ih =>
    simp only [List.foldl_cons]
    rw [ih (a ++ d ++ "/" ++ x ++ sep), ih ("" ++ d ++ "/" ++ x ++ sep)]
    simp [String.append_assoc]

theorem classpathFold_join (d sep : String) (libs : List String) (tail : String) :
    classpathFold d sep libs ++ tail =
      specClasspathJoin sep (libs.map (fun lib => d ++ "/" ++ lib) ++ [tail]) := by
  induction libs with
  | nil => simp [classpathFold, specClasspathJoin]
  | cons x xs ih =>
    rw [show classpathFold d sep (x :: xs) =
        List.foldl (fun acc lib => acc ++ d ++ "/" ++ lib ++ sep)
          ("" ++ d ++ "/" ++ x ++ sep) xs from rfl]
    rw [classpathFold_acc]
    cases xs with
    | nil =>
      simp [classpathFold, specClasspathJoin, String.append_assoc]
    | cons y ys =>
      simp only [List.map_cons, List.cons_append] at ih ⊢
      rw [show specClasspathJoin sep ((d ++ "/" ++ x) :: (d ++ "/" ++ y) ::
            (List.map (fun lib => d ++ "/" ++ lib) ys ++ [tail])) =
          (d ++ "/" ++ x) ++ sep ++ specClasspathJoin sep ((d ++ "/" ++ y) ::
            (List.map (fun lib => d ++ "/" ++ lib) ys ++ [tail])) from rfl]
      rw [← ih]
      simp [classpathFold, String.append_assoc]

/-- C8: the classpath is the separator-join of `librariesRoot/<relativePath>`
for each library in order with `versionRoot/client.jar` as the final entry,
and the argument vector is exactly, in order, as §4.6 enumerates it:
platform-conditional JVM flags, the four natives-directory properties, the
launcher-brand/version properties, `-cp <classpath>`, the main class, then
the game arguments ending `--accessToken ""`, `--versionType <type>` — with
no authentication-derived arguments anywhere in the vector. -/
theorem c8_classpath_and_argument_vector (pf : PlatformFlags) (sep : String)
    (l : Layout) (v : VersionInfo) :
    classpath l sep v =
        specClasspathJoin sep
          ((v.libraries.map (fun lib => librariesDir l ++ "/" ++ lib)) ++
            [versionDir l v.id ++ "/client.jar"]) ∧
      launchArgs pf sep l v =
        ((if pf.isMacOS then ["-XstartOnFirstThread"] else []) ++
          (if pf.isWin then
            ["-XX:HeapDumpPath=MojangTricksIntelDriversForPerformance_javaw.exe_minecraft.exe.heapdump"]
           else []) ++
          (if pf.isX86_32 then ["-Xss1M"] else []) ++
          ["-Djava.library.path=" ++ nativesDir l,
           "-Djna.tmpdir=" ++ nativesDir l,
           "-Dorg.lwjgl.system.SharedLibraryExtractPath=" ++ nativesDir l,
           "-Dio.netty.native.workdir=" ++ nativesDir l] ++
          ["-Dminecraft.launcher.brand=Ametrine",
           "-Dminecraft.launcher.version=0.1.0"] ++
          ["-cp", classpath l sep v] ++
          [v.mainClass] ++
          ["--username", USERNAME, "--version", v.id,
           "--gameDir", gameDir l v.id, "--assetsDir", assetsDir l,
           "--assetIndex", v.assets, "--accessToken", "",
           "--versionType", v.type]) := by
  constructor
  · show classpathFold (librariesDir l) sep v.libraries ++
        versionDir l v.id ++ "/client.jar" = _
    rw [String.append_assoc, classpathFold_join]
  · simp [launchArgs, classpath]

/-! ## C9: a duplicated version id keeps the last URL -/

def optOr : Option String → Option String → Option String
  | some a, _ => some a
  | none, b => b

theorem optOr_none_right (o : Option String) : optOr o none = o := by
  cases o <;> rfl

theorem find?_filter_ne (m : List (String × String)) (k k' : String) (h : k' ≠ k) :
    (m.filter (fun p => !(p.1 == k))).find? (fun p => p.1 == k') =
      m.find? (fun p => p.1 == k') := by
  induction m with
  | nil => rfl
  | cons a rest ih =>
    rw [List.filter_cons]
    by_cases ha : a.1 = k
    · have hdrop : (!(a.1 == k)) = false := by simp [ha]
      have hb : (a.1 == k') = false := by
        rw [beq_eq_false_iff_ne, ha]
        exact fun e => h e.symm
      rw [hdrop, if_neg (by simp), List.find?_cons, hb]
      exact ih
    · have hkeep : (!(a.1 == k)) = true := by simp [ha]
      rw [hkeep, if_pos rfl, List.find?_cons, List.find?_cons]
      cases hb : (a.1 == k') with
      | true => rfl
      | false => exact ih

theorem mapLookup_insert (m : List (String × String)) (k v k' : String) :
    mapLookup (mapInsert m k v) k' = if k' = k then some v else mapLookup m k' := by
  unfold mapLookup mapInsert
  rw [List.find?_append]
  by_cases h : k' = k
  · subst h
    have hnone : (m.filter (fun p => !(p.1 == k'))).find? (fun p => p.1 == k') = none := by
      rw [List.find?_eq_none]
      intro x hx
      have := (List.mem_filter.mp hx).2
      simpa using this
    rw [hnone, List.find?_cons]
    have hb : ((k', v).1 == k') = true := by simp
    rw [hb]
    simp
  · have hb : ((k, v).1 == k') = false := by
      rw [beq_eq_false_iff_ne]
      exact fun e => h e.symm
    have hone : List.find? (fun (p : String × String) => p.1 == k') [(k, v)] = none := by
      rw [List.find?_cons, hb]
      rfl
    rw [find?_filter_ne m k k' h, hone, Option.or_none, if_neg h]

theorem mapLookup_foldl_insert (es : List (String × String))
    (m : List (String × String)) (k : String) :
    mapLookup (es.foldl (fun acc e => mapInsert acc e.1 e.2) m) k =
      optOr ((es.reverse.find? (fun e => e.1 == k)).map (fun e => e.2))
        (mapLookup m k) := by
  induction es generalizing m with
  | nil => rfl
  | cons e rest ih =>
    rw [List.foldl_cons, ih, List.reverse_cons, List.find?_append]
    cases hfind : rest.reverse.find? (fun e => e.1 == k) with
    | some x => rfl
    | none =>
      by_cases he : e.1 = k
      · have hb : (e.1 == k) = true := by simp [he]
        have hone : List.find? (fun (p : String × String) => p.1 == k) [e] = some e := by
          rw [List.find?_cons, hb]
        simp only [Option.none_or, hone, Option.map_some]
        rw [mapLookup_insert, if_pos he.symm]
        rfl
      · have hb : (e.1 == k) = false := by
          rw [beq_eq_false_iff_ne]
          exact he
        have hone : List.find? (fun (p : String × String) => p.1 == k) [e] = none := by
          rw [List.find?_cons, hb]
          rfl
        simp only [Option.none_or, hone, Option.map_none]
        rw [mapLookup_insert, if_neg (fun x => he x.symm)]

theorem find?_pairmap (f g : Json → String) (k : String) (l : List Json) :
    (List.find? (fun (p : String × String) => p.1 == k)
        (l.map (fun v => (f v, g v)))).map (fun p => p.2) =
      (l.find? (fun v => f v == k)).map g := by
  induction l with
  | nil => rfl
  | cons x xs ih =>
    rw [List.map_cons, List.find?_cons, List.find?_cons]
    cases hb : (f x == k) with
    | true => rfl
    | false => exact ih

/-- C9: looking up an id in the parsed manifest's `versionUrls` yields the
URL of the last entry of the `versions` array bearing that id —
`QMap::operator[]` assignment silently overwrites earlier occurrences. -/
theorem c9_last_duplicate_wins (data : Json) (id : String) :
    mapLookup (VersionManifest.fromJson data).versionUrls id =
      (((data.get "versions").toArray).reverse.find?
          (fun v => (v.get "id").toString == id)).map
        (fun v => (v.get "url").toString) := by
  have h1 : (VersionManifest.fromJson data).versionUrls =
      (((data.get "versions").toArray).map
          (fun v => ((v.get "id").toString, (v.get "url").toString))).foldl
        (fun acc e => mapInsert acc e.1 e.2) [] := by
    show ((data.get "versions").toArray).foldl
        (fun m v => mapInsert m ((v.get "id").toString) ((v.get "url").toString)) [] = _
    rw [List.foldl_map]
  rw [h1, mapLookup_foldl_insert, show mapLookup [] id = none from rfl,
    optOr_none_right, ← List.map_reverse, find?_pairmap]

end Ametrine
